import Mathlib

/-!
A shallow embedding of `src/Wee-Web-Scraper.py`, a one-page web mirroring
tool.  Strings are modelled as lists of characters, byte buffers as lists of
naturals.  The external primitives the program uses (the HTTP client with a
timeout, the HTML parse library, the clock, `urllib.parse.urljoin`) are
collected in an `Env` record of oracle functions; wall-clock time is modelled
by a counter that each issued GET advances by an oracle-given amount, since
the program only observes time through `time.time()` differences taken
between downloads.  The filesystem is modelled as a write log, newest entry
first, so that reading a path returns the most recent write (overwrite
semantics).
-/

set_option maxRecDepth 8000

abbrev Str := List Char
abbrev Bytes := List Nat

/-- Coerce a Lean string literal to the character-list representation. -/
def str (s : String) : Str := s.toList

/-- `os.path.join a b` for a non-empty directory `a` and relative `b`,
which is the only way the program calls it. -/
def pathJoin (a b : Str) : Str := a ++ '/' :: b

/-- `os.path.basename`: the part after the last `/` (POSIX). -/
def basename (p : Str) : Str := (p.reverse.takeWhile (fun c => c != '/')).reverse

/-- Membership in `string.ascii_letters + string.digits + "._-"`
(both `Char.isAlpha` and `Char.isDigit` are ASCII-only in Lean). -/
def allowedChar (c : Char) : Bool :=
  c.isAlpha || c.isDigit || c == '.' || c == '_' || c == '-'

/-- `sanitize_filename` (source lines 28-42): drop everything from the first
`?`, then from the first `#`, then replace each character outside the
allowed set by `_`. -/
def sanitize_filename (filename : Str) : Str :=
  let f1 := filename.takeWhile (fun c => c != '?')
  let f2 := f1.takeWhile (fun c => c != '#')
  f2.map (fun c => if allowedChar c then c else '_')

/-- Characters allowed after the first one in a URL scheme
(`urllib.parse`: letters, digits, `+`, `-`, `.`). -/
def schemeChar (c : Char) : Bool :=
  c.isAlpha || c.isDigit || c == '+' || c == '-' || c == '.'

/-- A non-empty candidate scheme: a letter followed by scheme characters. -/
def validScheme : Str → Bool
  | [] => false
  | c :: cs => c.isAlpha && cs.all schemeChar

structure ParsedURL where
  scheme : Str
  netloc : Str
deriving DecidableEq

/-- The scheme/netloc fragment of `urllib.parse.urlparse`: if the text before
the first `:` is a valid scheme, split it off (lowercased); the netloc is
present only when the remainder starts with `//`, and runs to the next
`/`, `?` or `#`.  These two fields are all the program reads. -/
def urlparse (url : Str) : ParsedURL :=
  let pre := url.takeWhile (fun c => c != ':')
  let sr : Str × Str :=
    if pre.length < url.length && validScheme pre then
      (pre.map Char.toLower, url.drop (pre.length + 1))
    else ([], url)
  match sr.2 with
  | '/' :: '/' :: r =>
      ⟨sr.1, r.takeWhile (fun c => c != '/' && c != '?' && c != '#')⟩
  | _ => ⟨sr.1, []⟩

/-- `is_valid_url` (source lines 45-56): both netloc and scheme nonempty. -/
def is_valid_url (url : Str) : Bool :=
  !(urlparse url).netloc.isEmpty && !(urlparse url).scheme.isEmpty

/-- An element of the parsed HTML tree: a tag plus attribute/value pairs.
The parse primitive guarantees attribute names are unique per element. -/
structure Element where
  tag : Str
  attrs : List (Str × Str)
deriving DecidableEq

/-- `element.has_attr(a)` / `element[a]` access. -/
def getAttr (e : Element) (a : Str) : Option Str :=
  (e.attrs.find? (fun p => p.1 == a)).map (fun p => p.2)

/-- `element[a] = v` on an element that already carries attribute `a`. -/
def setAttr (e : Element) (a v : Str) : Element :=
  { e with attrs := e.attrs.map (fun p => if p.1 == a then (a, v) else p) }

/-- `soup.find_all(tag)`: elements with the given tag, in document order. -/
def find_all (es : List Element) (tag : Str) : List Element :=
  es.filter (fun e => e.tag == tag)

/-- Content of a persisted file: raw bytes, or a serialized page
(the pretty-printed tree is modelled by the tree itself). -/
inductive FileData where
  | bytes (b : Bytes)
  | page (p : List Element)
deriving DecidableEq

/-- The filesystem as a write log, newest first. -/
abbrev FS := List (Str × FileData)

def fsWrite (fs : FS) (p : Str) (d : FileData) : FS := (p, d) :: fs

/-- Reading returns the newest write to the path (overwrite semantics). -/
def fsRead (fs : FS) (p : Str) : Option FileData :=
  (fs.find? (fun e => e.1 == p)).map (fun e => e.2)

/-- Classification of one `download_file` call. -/
inductive Status where
  | saved
  | skippedInvalid
  | fetchFailed
deriving DecidableEq

/-- External primitives, as oracles.  `fetch u = some b` models a GET whose
`raise_for_status` passes and whose body is `b`; `none` models any
`requests.exceptions.RequestException` (transport error, timeout, non-2xx).
`fetchTime u` is the wall-clock time the GET attempt consumes.  `parse` and
`titleOf` are the HTML parse primitive (`titleOf = none` when
`soup.title.string` is absent, which aborts the run).  `timestamp` is the
formatted `datetime.now()` value. -/
structure Env where
  fetch : Str → Option Bytes
  fetchTime : Str → Nat
  urljoin : Str → Str → Str
  parse : Bytes → List Element
  titleOf : Bytes → Option Str
  timestamp : Str

/-- Result of one `download_file` call: the outcome, the file writes it
performed, whether the HTTP GET primitive was invoked, and the wall-clock
time consumed. -/
structure DLResult where
  status : Status
  files : FS
  getCalled : Bool
  timeUsed : Nat
deriving DecidableEq

/-- `download_file` (source lines 59-94): validate the URL (an invalid URL is
skipped with no GET), issue a single GET, and on success write the body to
`directory/sanitize_filename(filename)`.  The model filesystem never fails,
so the `IOError` branch does not arise. -/
def download_file (env : Env) (url filename directory : Str) : DLResult :=
  if !is_valid_url url then ⟨.skippedInvalid, [], false, 0⟩
  else
    match env.fetch url with
    | none => ⟨.fetchFailed, [], true, env.fetchTime url⟩
    | some body =>
        let file_path := pathJoin directory (sanitize_filename filename)
        ⟨.saved, [(file_path, FileData.bytes body)], true, env.fetchTime url⟩

/-- First rewrite pass (source lines 109-111): `img` elements with a `src`
get `src = os.path.join("images", sanitize_filename(src))`. -/
def updateImg (e : Element) : Element :=
  if e.tag == str "img" then
    match getAttr e (str "src") with
    | some v => setAttr e (str "src") (pathJoin (str "images") (sanitize_filename v))
    | none => e
  else e

/-- Second rewrite pass (source lines 114-116): `script` elements with a
`src` get `src = os.path.join("js", sanitize_filename(src))`. -/
def updateScript (e : Element) : Element :=
  if e.tag == str "script" then
    match getAttr e (str "src") with
    | some v => setAttr e (str "src") (pathJoin (str "js") (sanitize_filename v))
    | none => e
  else e

/-- Third rewrite pass (source lines 119-121): `link` elements with
`rel="stylesheet"` and an `href` get
`href = os.path.join("css", sanitize_filename(href))`. -/
def updateCss (e : Element) : Element :=
  if e.tag == str "link" && getAttr e (str "rel") == some (str "stylesheet") then
    match getAttr e (str "href") with
    | some v => setAttr e (str "href") (pathJoin (str "css") (sanitize_filename v))
    | none => e
  else e

/-- The three sequential rewrite passes of `modify_html_content` over the
whole tree. -/
def modifyTree (es : List Element) : List Element :=
  ((es.map updateImg).map updateScript).map updateCss

/-- The per-element composite of the three passes. -/
def rewriteElem (e : Element) : Element := updateCss (updateScript (updateImg e))

/-- `modify_html_content` (source lines 97-125): rewrite the tree and write
its serialization to `directory_name/index.html` (opened with `"w"`, i.e. an
overwrite).  `_base_url` is accepted and ignored, as in the source. -/
def modify_html_content (content : List Element) (directory_name _base_url : Str)
    (fs : FS) : FS :=
  fsWrite fs (pathJoin directory_name (str "index.html")) (FileData.page (modifyTree content))

/-- One scheduled acquisition item: the raw attribute value and the full
subdirectory path it is to be saved under. -/
structure Job where
  rawUrl : Str
  subdir : Str
deriving DecidableEq

/-- The record kept of one processed item. -/
structure Attempt where
  rawUrl : Str
  contentUrl : Str
  filename : Str
  subdir : Str
  status : Status
deriving DecidableEq

/-- `content_url.startswith("..")`. -/
def startsDotDot : Str → Bool
  | '.' :: '.' :: _ => true
  | _ => false

/-- Source lines 185-186: only URLs starting with `..` are joined against
the base URL; every other value is used as is. -/
def resolveUrl (env : Env) (base_url rawUrl : Str) : Str :=
  if startsDotDot rawUrl then env.urljoin base_url rawUrl else rawUrl

/-- Result of the acquisition loop. -/
structure SchedResult where
  fs : FS
  attempts : List Attempt
  truncated : Bool
  clock : Nat
deriving Inhabited

/-- The acquisition loop body (source lines 182-195): for each scheduled
item, resolve the URL, take the basename, call `download_file`, and then —
after the item has been processed — compare the elapsed wall clock against
`time_limit`; if `time_limit ≤ elapsed` stop at once (the early `return`
skips everything after the loop).  `clock` is the elapsed time since
`start_time`. -/
def runJobs (env : Env) (base_url : Str) (time_limit : Nat) :
    Nat → FS → List Job → SchedResult
  | clock, fs, [] => ⟨fs, [], false, clock⟩
  | clock, fs, j :: rest =>
      let content_url := resolveUrl env base_url j.rawUrl
      let filename := basename content_url
      let r := download_file env content_url filename j.subdir
      let fs2 := r.files ++ fs
      let clock2 := clock + r.timeUsed
      let att : Attempt := ⟨j.rawUrl, content_url, filename, j.subdir, r.status⟩
      if time_limit ≤ clock2 then ⟨fs2, [att], true, clock2⟩
      else
        let res := runJobs env base_url time_limit clock2 fs2 rest
        ⟨res.fs, att :: res.attempts, res.truncated, res.clock⟩

/-- The items one `(tag, attribute, subdir)` tuple contributes: every element
with that tag that carries the attribute, in document order. -/
def catJobs (es : List Element) (tag attr subdir : Str) : List Job :=
  (find_all es tag).filterMap (fun e => (getAttr e attr).map (fun v => ⟨v, subdir⟩))

/-- The fixed tuple list of source lines 175-181, flattened into the ordered
schedule of acquisition items. -/
def scheduleJobs (directory_name : Str) (es : List Element) : List Job :=
  catJobs es (str "img") (str "src") (pathJoin directory_name (str "images")) ++
  catJobs es (str "audio") (str "src") (pathJoin directory_name (str "audio")) ++
  catJobs es (str "a") (str "href") (pathJoin directory_name (str "pdfs")) ++
  catJobs es (str "a") (str "href") (pathJoin directory_name (str "text")) ++
  catJobs es (str "script") (str "src") (pathJoin directory_name (str "js"))

/-- `create_directory` (source lines 12-25): `<timestamp>_<sanitize(title[:20])>`. -/
def create_directory (env : Env) (title : Str) : Str :=
  env.timestamp ++ '_' :: sanitize_filename (title.take 20)

/-- Source line 140: `scheme + "://" + netloc` of the target URL. -/
def base_url_of (url : Str) : Str :=
  (urlparse url).scheme ++ str "://" ++ (urlparse url).netloc

/-- The observable state of a run that got past the fatal early exits. -/
structure RunOk where
  directory_name : Str
  dirs : List Str
  fs : FS
  attempts : List Attempt
  truncated : Bool
deriving DecidableEq

/-- `parse_website` (source lines 128-200): fetch the root page (a failure
aborts), extract the title (absence aborts), provision the directory tree,
persist the raw page as `index.html`, run the acquisition loop over the
scheduled items, and — only when the loop was not cut short by the time
limit — rewrite and persist the final page.  `none` models the fatal early
exits. -/
def parse_website (env : Env) (url : Str) (time_limit : Nat) : Option RunOk :=
  let base_url := base_url_of url
  match env.fetch url with
  | none => none
  | some body =>
      let clock0 := env.fetchTime url
      let soup := env.parse body
      match env.titleOf body with
      | none => none
      | some title =>
          let directory_name := create_directory env title
          let dirs := directory_name ::
            [pathJoin directory_name (str "images"), pathJoin directory_name (str "audio"),
             pathJoin directory_name (str "pdfs"), pathJoin directory_name (str "text"),
             pathJoin directory_name (str "js"), pathJoin directory_name (str "css")]
          let fs0 : FS := [(pathJoin directory_name (str "index.html"), FileData.bytes body)]
          let jobs := scheduleJobs directory_name soup
          let s := runJobs env base_url time_limit clock0 fs0 jobs
          if s.truncated then
            some ⟨directory_name, dirs, s.fs, s.attempts, true⟩
          else
            some ⟨directory_name, dirs,
              modify_html_content soup directory_name base_url s.fs, s.attempts, false⟩

/-! ### Properties of the filename sanitizer -/

theorem mem_sanitize_allowed (s : Str) : ∀ c ∈ sanitize_filename s, allowedChar c = true := by
  intro c hc
  simp only [sanitize_filename, List.mem_map] at hc
  obtain ⟨a, -, rfl⟩ := hc
  by_cases h : allowedChar a
  · simp [h]
  · rw [if_neg h]; decide

theorem allowed_ne_qm_hash {c : Char} (h : allowedChar c = true) :
    (c != '?') = true ∧ (c != '#') = true := by
  constructor <;> simp only [bne_iff_ne, ne_eq] <;> rintro rfl <;> exact absurd h (by decide)

theorem takeWhile_pair (l : Str) :
    (l.takeWhile (fun c => c != '?')).takeWhile (fun c => c != '#') =
      l.takeWhile (fun c => c != '?' && c != '#') := by
  induction l with
  | nil => rfl
  | cons a l ih =>
      by_cases h1 : (a != '?') = true <;> by_cases h2 : (a != '#') = true <;>
        simp [List.takeWhile_cons, h1, h2, ih]

theorem takeWhile_of_all {p : Char → Bool} {l : Str} (h : ∀ c ∈ l, p c = true) :
    l.takeWhile p = l := by
  induction l with
  | nil => rfl
  | cons a l ih =>
      simp [List.takeWhile_cons, h a (by simp), ih fun c hc => h c (by simp [hc])]

theorem map_id_of_all {f : Char → Char} {l : Str} (h : ∀ c ∈ l, f c = c) :
    l.map f = l := by
  induction l with
  | nil => rfl
  | cons a l ih => simp [h a (by simp), ih fun c hc => h c (by simp [hc])]

theorem sanitize_of_allowed {l : Str} (h : ∀ c ∈ l, allowedChar c = true) :
    sanitize_filename l = l := by
  simp only [sanitize_filename]
  rw [takeWhile_of_all (p := fun c => c != '?')
      (fun c hc => (allowed_ne_qm_hash (h c hc)).1),
    takeWhile_of_all (p := fun c => c != '#')
      (fun c hc => (allowed_ne_qm_hash (h c hc)).2)]
  exact map_id_of_all fun c hc => by simp [h c hc]

/-- C9: `sanitize_filename` is total (a Lean function, defined on every
string including the empty one), its output contains only characters from
`{A-Z, a-z, 0-9, '.', '_', '-'}`, everything from the first `?` or `#`
onward is removed (it equals the character-replacement map applied to the
prefix before the first `?` or `#`), and it is idempotent. -/
theorem c9_sanitize_total_idempotent (s : Str) :
    (∀ c ∈ sanitize_filename s, allowedChar c = true) ∧
    sanitize_filename s =
      (s.takeWhile (fun c => c != '?' && c != '#')).map
        (fun c => if allowedChar c then c else '_') ∧
    sanitize_filename (sanitize_filename s) = sanitize_filename s := by
  refine ⟨mem_sanitize_allowed s, ?_, ?_⟩
  · simp only [sanitize_filename]
    rw [takeWhile_pair]
  · exact sanitize_of_allowed (mem_sanitize_allowed s)

/-- Witness for C9 at concrete inputs. -/
theorem c9_witness :
    allowedChar 'b' = true ∧
    sanitize_filename (sanitize_filename (str "a?b/c")) = sanitize_filename (str "a?b/c") :=
  ⟨(c9_sanitize_total_idempotent (str "b")).1 'b' (by decide),
   (c9_sanitize_total_idempotent (str "a?b/c")).2.2⟩

/-! ### The asset fetcher skips invalid URLs without touching the network -/

/-- C8: a URL without both a scheme and a network location — in particular
the empty string and `"not a url"` — makes `download_file` return the
invalid-URL skip outcome with no file written, zero time consumed, and the
HTTP GET primitive never invoked. -/
theorem c8_invalid_url_skips_without_get :
    is_valid_url (str "") = false ∧ is_valid_url (str "not a url") = false ∧
    ∀ (env : Env) (url filename directory : Str), is_valid_url url = false →
      download_file env url filename directory =
        ⟨Status.skippedInvalid, [], false, 0⟩ := by
  refine ⟨by decide, by decide, ?_⟩
  intro env url filename directory h
  simp [download_file, h]

/-- A trivial oracle environment, used to instantiate witnesses. -/
def envT : Env where
  fetch _ := none
  fetchTime _ := 0
  urljoin _ r := r
  parse _ := []
  titleOf _ := none
  timestamp := []

/-- Witness for C8 at the concrete URL `"not a url"`. -/
theorem c8_witness :
    download_file envT (str "not a url") (str "f.png") (str "d") =
      ⟨Status.skippedInvalid, [], false, 0⟩ :=
  c8_invalid_url_skips_without_get.2.2 envT (str "not a url") (str "f.png") (str "d")
    c8_invalid_url_skips_without_get.2.1

/-! ### The reference rewriter, element by element -/

theorem find?_map_set (l : List (Str × Str)) (a v : Str)
    (h : (l.find? (fun p => p.1 == a)).isSome = true) :
    ((l.map (fun p => if p.1 == a then (a, v) else p)).find? (fun p => p.1 == a)) =
      some (a, v) := by
  induction l with
  | nil => simp at h
  | cons x l ih =>
      by_cases hx : (x.1 == a) = true
      · rw [List.map_cons, if_pos hx, List.find?_cons_of_pos _ (by simp)]
      · rw [List.find?_cons_of_neg (p := fun (q : Str × Str) => q.1 == a) l hx] at h
        rw [List.map_cons, if_neg hx,
          List.find?_cons_of_neg (p := fun (q : Str × Str) => q.1 == a) _ hx]
        exact ih h

theorem getAttr_setAttr {e : Element} {a w : Str} (v : Str)
    (h : getAttr e a = some w) :
    getAttr (setAttr e a v) a = some v := by
  have hs : (e.attrs.find? (fun p => p.1 == a)).isSome = true := by
    simp only [getAttr] at h
    rcases Option.map_eq_some'.1 h with ⟨p, hp, -⟩
    simp [hp]
  simp only [getAttr, setAttr]
  rw [find?_map_set e.attrs a v hs]
  rfl

theorem setAttr_tag (e : Element) (a v : Str) : (setAttr e a v).tag = e.tag := rfl

theorem rewriteElem_img {e : Element} {v : Str} (ht : e.tag = str "img")
    (hv : getAttr e (str "src") = some v) :
    getAttr (rewriteElem e) (str "src") =
      some (pathJoin (str "images") (sanitize_filename v)) := by
  have h1 : updateImg e =
      setAttr e (str "src") (pathJoin (str "images") (sanitize_filename v)) := by
    simp [updateImg, ht, hv]
  have h2 : updateScript (updateImg e) = updateImg e := by
    rw [h1]
    simp [updateScript, setAttr_tag, ht, show (str "img" == str "script") = false by decide]
  have h3 : updateCss (updateScript (updateImg e)) = updateImg e := by
    rw [h2, h1]
    simp [updateCss, setAttr_tag, ht, show (str "img" == str "link") = false by decide]
  rw [rewriteElem, h3, h1]
  exact getAttr_setAttr _ hv

theorem rewriteElem_script {e : Element} {v : Str} (ht : e.tag = str "script")
    (hv : getAttr e (str "src") = some v) :
    getAttr (rewriteElem e) (str "src") =
      some (pathJoin (str "js") (sanitize_filename v)) := by
  have h1 : updateImg e = e := by
    simp [updateImg, ht, show (str "script" == str "img") = false by decide]
  have h2 : updateScript e =
      setAttr e (str "src") (pathJoin (str "js") (sanitize_filename v)) := by
    simp [updateScript, ht, hv]
  have h3 : updateCss (updateScript e) = updateScript e := by
    rw [h2]
    simp [updateCss, setAttr_tag, ht, show (str "script" == str "link") = false by decide]
  rw [rewriteElem, h1, h3, h2]
  exact getAttr_setAttr _ hv

theorem rewriteElem_css {e : Element} {v : Str} (ht : e.tag = str "link")
    (hr : getAttr e (str "rel") = some (str "stylesheet"))
    (hv : getAttr e (str "href") = some v) :
    getAttr (rewriteElem e) (str "href") =
      some (pathJoin (str "css") (sanitize_filename v)) := by
  have h1 : updateImg e = e := by
    simp [updateImg, ht, show (str "link" == str "img") = false by decide]
  have h2 : updateScript e = e := by
    simp [updateScript, ht, show (str "link" == str "script") = false by decide]
  have h3 : updateCss e =
      setAttr e (str "href") (pathJoin (str "css") (sanitize_filename v)) := by
    simp [updateCss, ht, hr, hv]
  rw [rewriteElem, h1, h2, h3]
  exact getAttr_setAttr _ hv

theorem rewriteElem_audio {e : Element} (ht : e.tag = str "audio") :
    rewriteElem e = e := by
  rw [rewriteElem]
  rw [show updateImg e = e by
    simp [updateImg, ht, show (str "audio" == str "img") = false by decide]]
  rw [show updateScript e = e by
    simp [updateScript, ht, show (str "audio" == str "script") = false by decide]]
  simp [updateCss, ht, show (str "audio" == str "link") = false by decide]

theorem rewriteElem_anchor {e : Element} (ht : e.tag = str "a") :
    rewriteElem e = e := by
  rw [rewriteElem]
  rw [show updateImg e = e by
    simp [updateImg, ht, show (str "a" == str "img") = false by decide]]
  rw [show updateScript e = e by
    simp [updateScript, ht, show (str "a" == str "script") = false by decide]]
  simp [updateCss, ht, show (str "a" == str "link") = false by decide]

theorem modifyTree_eq_map (es : List Element) : modifyTree es = es.map rewriteElem := by
  simp only [modifyTree, List.map_map]
  rfl

/-- Oracle environment for a root page whose single `img` reference carries
an absolute URL with a path component, `http://h.t/f/b.png`. -/
def env1 : Env where
  fetch u := if u == str "http://h.t/" then some [9]
    else if u == str "http://h.t/f/b.png" then some [1] else none
  fetchTime _ := 0
  urljoin _ r := r
  parse _ := [⟨str "img", [(str "src", str "http://h.t/f/b.png")]⟩]
  titleOf _ := some (str "T")
  timestamp := str "20250101_000000"

/-- C1 counterexample: on the page whose `img` has
`src = "http://h.t/f/b.png"`, the Acquisition Scheduler saves the bytes
under `images/b.png` (the sanitized basename of the resolved URL), but the
Reference Rewriter writes `images/http___h.t_f_b.png` into the persisted
page — the sanitization of the whole raw URL.  The two relative paths
differ, no file exists at the path the page references, and the emitted
path is not `<categoryDir>/<sanitizedBasename>`. -/
theorem c1_counterexample :
    (parse_website env1 (str "http://h.t/") 100).map (fun r =>
      (fsRead r.fs (pathJoin r.directory_name (str "index.html")),
       fsRead r.fs (pathJoin (pathJoin r.directory_name (str "images")) (str "b.png")),
       fsRead r.fs (pathJoin (pathJoin r.directory_name (str "images"))
         (str "http___h.t_f_b.png")))) =
      some
        (some (FileData.page [⟨str "img", [(str "src", str "images/http___h.t_f_b.png")]⟩]),
         some (FileData.bytes [1]),
         none) ∧
    str "images/http___h.t_f_b.png" ≠
      pathJoin (str "images") (sanitize_filename (basename (str "http://h.t/f/b.png"))) := by
  constructor
  · decide
  · decide

/-- C1 (amended): the local path the Reference Rewriter emits is
`<categoryDir>/<sanitize_filename(rawAttributeValue)>` — the sanitization of
the whole raw attribute value, not the sanitized basename of the resolved
URL under which the Acquisition Scheduler saved the bytes — for each of the
three categories the rewriter handles (`img`/`src` → `images`,
`script`/`src` → `js`, stylesheet `link`/`href` → `css`); the page and the
persisted assets therefore agree on a reference's path only when
`sanitize_filename(rawURL)` coincides with
`sanitize_filename(basename(resolvedURL))`. -/
theorem c1_emitted_path_is_sanitized_raw_url :
    (∀ (e : Element) (v : Str), e.tag = str "img" → getAttr e (str "src") = some v →
      getAttr (rewriteElem e) (str "src") =
        some (pathJoin (str "images") (sanitize_filename v))) ∧
    (∀ (e : Element) (v : Str), e.tag = str "script" → getAttr e (str "src") = some v →
      getAttr (rewriteElem e) (str "src") =
        some (pathJoin (str "js") (sanitize_filename v))) ∧
    (∀ (e : Element) (v : Str), e.tag = str "link" →
      getAttr e (str "rel") = some (str "stylesheet") →
      getAttr e (str "href") = some v →
      getAttr (rewriteElem e) (str "href") =
        some (pathJoin (str "css") (sanitize_filename v))) ∧
    ∀ es : List Element, modifyTree es = es.map rewriteElem :=
  ⟨fun _ _ ht hv => rewriteElem_img ht hv,
   fun _ _ ht hv => rewriteElem_script ht hv,
   fun _ _ ht hr hv => rewriteElem_css ht hr hv,
   modifyTree_eq_map⟩

/-- Witness for C1's amended theorem at a concrete `img` element. -/
theorem c1_witness :
    getAttr (rewriteElem ⟨str "img", [(str "src", str "x.png")]⟩) (str "src") =
      some (pathJoin (str "images") (sanitize_filename (str "x.png"))) :=
  c1_emitted_path_is_sanitized_raw_url.1 ⟨str "img", [(str "src", str "x.png")]⟩
    (str "x.png") rfl (by decide)

/-- Oracle environment for a root page whose single reference is an `audio`
element with a valid absolute URL. -/
def env5 : Env where
  fetch u := if u == str "http://h.t/" then some [9]
    else if u == str "http://h.t/s.mp3" then some [7] else none
  fetchTime _ := 0
  urljoin _ r := r
  parse _ := [⟨str "audio", [(str "src", str "http://h.t/s.mp3")]⟩]
  titleOf _ := some (str "T")
  timestamp := str "20250101_000000"

/-- C5 counterexample: the `audio` category is handled by the scheduler
(the fetch succeeds and the bytes are saved under `audio/s.mp3`), yet the
Reference Rewriter leaves the `audio` element's `src` attribute completely
unchanged — it still holds the remote URL, not `audio/s.mp3`. -/
theorem c5_counterexample :
    (parse_website env5 (str "http://h.t/") 100).map (fun r =>
      (fsRead r.fs (pathJoin r.directory_name (str "index.html")),
       fsRead r.fs (pathJoin (pathJoin r.directory_name (str "audio")) (str "s.mp3")),
       r.attempts.map (fun a => a.status))) =
      some
        (some (FileData.page [⟨str "audio", [(str "src", str "http://h.t/s.mp3")]⟩]),
         some (FileData.bytes [7]),
         [Status.saved]) ∧
    str "http://h.t/s.mp3" ≠ pathJoin (str "audio") (str "s.mp3") := by
  constructor
  · decide
  · decide

/-- C5 (amended): the Reference Rewriter rewrites only `img`/`src` (to
`images/...`), `script`/`src` (to `js/...`) and stylesheet `link`/`href`
(to `css/...`); elements of the `audio` and `a` (pdf-link / text-link)
categories the scheduler fetches are left entirely unchanged.  For the tags
it does rewrite, the rewrite depends only on the element's shape — the
rewriter receives no fetch outcomes at all, so a failed asset still gets a
rewritten-but-broken local reference. -/
theorem c5_rewrites_only_img_script_css :
    (∀ e : Element, e.tag = str "audio" → rewriteElem e = e) ∧
    (∀ e : Element, e.tag = str "a" → rewriteElem e = e) ∧
    (∀ (e : Element) (v : Str), e.tag = str "img" → getAttr e (str "src") = some v →
      getAttr (rewriteElem e) (str "src") =
        some (pathJoin (str "images") (sanitize_filename v))) ∧
    (∀ (e : Element) (v : Str), e.tag = str "script" → getAttr e (str "src") = some v →
      getAttr (rewriteElem e) (str "src") =
        some (pathJoin (str "js") (sanitize_filename v))) :=
  ⟨fun _ ht => rewriteElem_audio ht,
   fun _ ht => rewriteElem_anchor ht,
   fun _ _ ht hv => rewriteElem_img ht hv,
   fun _ _ ht hv => rewriteElem_script ht hv⟩

/-- Witness for C5's amended theorem at a concrete `audio` element. -/
theorem c5_witness :
    rewriteElem ⟨str "audio", [(str "src", str "u.mp3")]⟩ =
      ⟨str "audio", [(str "src", str "u.mp3")]⟩ :=
  c5_rewrites_only_img_script_css.1 ⟨str "audio", [(str "src", str "u.mp3")]⟩ rfl

/-! ### The acquisition scheduler checks the clock after each item -/

/-- C2 counterexample: the same single-image page run with budget `0`
records one outcome, not zero — the first reference is processed before the
elapsed-time check, which happens only after `download_file` returns. -/
theorem c2_counterexample :
    (parse_website env1 (str "http://h.t/") 0).map (fun r =>
      (r.attempts.length, r.truncated)) = some (1, true) := by
  decide

/-- C2 (amended): the scheduler checks the elapsed wall clock only after an
item has been processed: whenever the budget is already consumed by the end
of the first item (in particular always when the budget is `0`), the
scheduler still processes that first item, records exactly one outcome, and
then stops with `truncated = true` without touching the remaining items. -/
theorem c2_budget_checked_after_item :
    ∀ (env : Env) (base : Str) (limit clock : Nat) (fs : FS) (j : Job)
      (rest : List Job),
      (limit ≤ clock + (download_file env (resolveUrl env base j.rawUrl)
          (basename (resolveUrl env base j.rawUrl)) j.subdir).timeUsed →
        (runJobs env base limit clock fs (j :: rest)).attempts.length = 1 ∧
        (runJobs env base limit clock fs (j :: rest)).truncated = true) ∧
      (runJobs env base 0 clock fs (j :: rest)).attempts.length = 1 ∧
      (runJobs env base 0 clock fs (j :: rest)).truncated = true := by
  intro env base limit clock fs j rest
  refine ⟨fun h => ?_, ?_⟩
  · simp only [runJobs]
    rw [if_pos h]
    exact ⟨rfl, rfl⟩
  · simp only [runJobs]
    rw [if_pos (Nat.zero_le _)]
    exact ⟨rfl, rfl⟩

/-- Witness for C2's amended theorem at concrete scheduler arguments. -/
theorem c2_witness :
    (runJobs envT [] 5 5 [] [⟨[], []⟩]).attempts.length = 1 ∧
    (runJobs envT [] 5 5 [] [⟨[], []⟩]).truncated = true :=
  (c2_budget_checked_after_item envT [] 5 5 [] ⟨[], []⟩ []).1 (by decide)

/-! ### The rewritten page overwrites the raw copy -/

/-- Oracle environment for a root page with a title and no asset
references at all. -/
def env7 : Env where
  fetch u := if u == str "http://h.t/" then some [9] else none
  fetchTime _ := 0
  urljoin _ r := r
  parse _ := []
  titleOf _ := some (str "T")
  timestamp := str "20250101_000000"

/-- C7 counterexample: after the rewriter persists the final page, reading
`index.html` yields the rewritten page, and no path on disk (no path ever
written in the run) still yields the raw page bytes `[9]` — the raw copy was
overwritten in place, not kept as a separate backup artifact. -/
theorem c7_counterexample :
    (parse_website env7 (str "http://h.t/") 100).map (fun r =>
      (fsRead r.fs (pathJoin r.directory_name (str "index.html")),
       r.fs.all (fun x => decide (fsRead r.fs x.1 ≠ some (FileData.bytes [9]))))) =
      some (some (FileData.page []), true) := by
  decide

/-- C7 (amended): `modify_html_content` writes the rewritten page to
`<directory>/index.html` — the very path that held the raw copy, which it
overwrites — and changes no other path of the filesystem. -/
theorem c7_rewrite_overwrites_raw_in_place :
    ∀ (content : List Element) (dn b : Str) (fs : FS),
      fsRead (modify_html_content content dn b fs) (pathJoin dn (str "index.html")) =
        some (FileData.page (modifyTree content)) ∧
      ∀ p : Str, p ≠ pathJoin dn (str "index.html") →
        fsRead (modify_html_content content dn b fs) p = fsRead fs p := by
  intro content dn b fs
  constructor
  · simp [modify_html_content, fsWrite, fsRead]
  · intro p hp
    have hne : ¬((pathJoin dn (str "index.html") == p) = true) := by
      simp only [beq_iff_eq]
      exact fun h => hp h.symm
    simp only [modify_html_content, fsWrite, fsRead]
    rw [List.find?_cons_of_neg (p := fun (e : Str × FileData) => e.1 == p) _ hne]

/-- Witness for C7's amended theorem at a concrete path. -/
theorem c7_witness :
    fsRead (modify_html_content [] (str "d") [] []) (str "x") =
      fsRead ([] : FS) (str "x") :=
  (c7_rewrite_overwrites_raw_in_place [] (str "d") [] []).2 (str "x") (by decide)

/-! ### What the acquisition loop writes, and what it leaves alone -/

theorem fsRead_fsWrite_self (fs : FS) (p : Str) (d : FileData) :
    fsRead (fsWrite fs p d) p = some d := by
  simp [fsRead, fsWrite]

theorem fsRead_append_not_mem (new fs : FS) (p : Str)
    (h : ∀ x ∈ new, x.1 ≠ p) : fsRead (new ++ fs) p = fsRead fs p := by
  induction new with
  | nil => rfl
  | cons x l ih =>
      have hx : ¬(((fun (e : Str × FileData) => e.1 == p) x) = true) := by
        simp only [beq_iff_eq]
        exact h x (by simp)
      simp only [List.cons_append, fsRead]
      rw [List.find?_cons_of_neg (p := fun (e : Str × FileData) => e.1 == p) _ hx]
      exact ih fun y hy => h y (by simp [hy])

theorem download_files_path (env : Env) (u fn d : Str) :
    ∀ x ∈ (download_file env u fn d).files, ∃ nm, x.1 = pathJoin d nm := by
  intro x hx
  by_cases hv : is_valid_url u
  · rw [download_file, if_neg (by simp [hv])] at hx
    cases hf : env.fetch u with
    | none => rw [hf] at hx; simp at hx
    | some b =>
        rw [hf] at hx
        simp only [List.mem_singleton] at hx
        exact ⟨sanitize_filename fn, by rw [hx]⟩
  · rw [download_file, if_pos (by simp [hv])] at hx
    simp at hx

theorem runJobs_fs_shape (env : Env) (base : Str) (limit : Nat) :
    ∀ (js : List Job) (clock : Nat) (fs : FS), ∃ new : FS,
      (runJobs env base limit clock fs js).fs = new ++ fs ∧
      ∀ x ∈ new, ∃ j ∈ js, ∃ nm, x.1 = pathJoin j.subdir nm := by
  intro js
  induction js with
  | nil => exact fun clock fs => ⟨[], rfl, by simp⟩
  | cons j rest ih =>
      intro clock fs
      simp only [runJobs]
      split
      · refine ⟨_, rfl, ?_⟩
        intro x hx
        exact ⟨j, by simp, download_files_path env _ _ _ x hx⟩
      · obtain ⟨new, hnew, hpaths⟩ := ih _ _
        refine ⟨new ++ (download_file env (resolveUrl env base j.rawUrl)
          (basename (resolveUrl env base j.rawUrl)) j.subdir).files, ?_, ?_⟩
        · rw [List.append_assoc]
          exact hnew
        · intro x hx
          rcases List.mem_append.1 hx with hx | hx
          · obtain ⟨j2, hj2, hp⟩ := hpaths x hx
            exact ⟨j2, by simp [hj2], hp⟩
          · exact ⟨j, by simp, download_files_path env _ _ _ x hx⟩

theorem catJobs_subdir (es : List Element) (tag a sub : Str) :
    ∀ j ∈ catJobs es tag a sub, j.subdir = sub := by
  intro j hj
  simp only [catJobs, List.mem_filterMap] at hj
  obtain ⟨e, -, he⟩ := hj
  rcases Option.map_eq_some'.1 he with ⟨v, -, rfl⟩
  rfl

theorem scheduleJobs_subdir (dn : Str) (es : List Element) :
    ∀ j ∈ scheduleJobs dn es, ∃ sub, j.subdir = pathJoin dn sub := by
  intro j hj
  simp only [scheduleJobs, List.mem_append] at hj
  rcases hj with ((((h | h) | h) | h) | h)
  · exact ⟨str "images", catJobs_subdir _ _ _ _ j h⟩
  · exact ⟨str "audio", catJobs_subdir _ _ _ _ j h⟩
  · exact ⟨str "pdfs", catJobs_subdir _ _ _ _ j h⟩
  · exact ⟨str "text", catJobs_subdir _ _ _ _ j h⟩
  · exact ⟨str "js", catJobs_subdir _ _ _ _ j h⟩

theorem path_sub_ne_index (d sub nm : Str) :
    pathJoin (pathJoin d sub) nm ≠ pathJoin d (str "index.html") := by
  intro h
  have h5 : d ++ ('/' :: (sub ++ '/' :: nm)) = d ++ ('/' :: str "index.html") := by
    simpa [pathJoin, List.append_assoc] using h
  have h2 : ('/' : Char) :: (sub ++ '/' :: nm) = '/' :: str "index.html" :=
    List.append_cancel_left h5
  have h3 : sub ++ '/' :: nm = str "index.html" := by
    injection h2
  have h4 : ('/' : Char) ∈ str "index.html" := by
    rw [← h3]
    exact List.mem_append.2 (Or.inr (by simp))
  exact absurd h4 (by decide)

theorem runJobs_preserves_index (env : Env) (base : Str) (limit clock : Nat)
    (dn : Str) (es : List Element) (d : FileData) (fs : FS)
    (hfs : fsRead fs (pathJoin dn (str "index.html")) = some d) :
    fsRead (runJobs env base limit clock fs (scheduleJobs dn es)).fs
      (pathJoin dn (str "index.html")) = some d := by
  obtain ⟨new, hnew, hpaths⟩ :=
    runJobs_fs_shape env base limit (scheduleJobs dn es) clock fs
  rw [hnew, fsRead_append_not_mem]
  · exact hfs
  · intro x hx
    obtain ⟨j, hj, nm, hxp⟩ := hpaths x hx
    obtain ⟨sub, hsub⟩ := scheduleJobs_subdir dn es j hj
    rw [hxp, hsub]
    exact path_sub_ne_index dn sub nm

/-! ### Truncation skips the rewrite-and-persist step -/

/-- C3 counterexample: with budget `0` the single-image run is truncated,
and the persisted `index.html` still holds the raw page bytes — the
rewritten page is never serialized or persisted, because the early return
on the time limit skips `modify_html_content`. -/
theorem c3_counterexample :
    (parse_website env1 (str "http://h.t/") 0).map (fun r =>
      (r.truncated, fsRead r.fs (pathJoin r.directory_name (str "index.html")))) =
      some (true, some (FileData.bytes [9])) := by
  decide

/-- C3 (amended): a run that reaches the acquisition phase always ends with
an `index.html` in the title-derived directory, and per-asset failures are
non-fatal; but the rewrite-and-persist step runs only when the budget did
not truncate the batch.  Untruncated runs persist the rewritten page as
`index.html`; truncated runs return early, leaving the raw copy as
`index.html`, never rewritten. -/
theorem c3_truncation_skips_rewrite :
    ∀ (env : Env) (url : Str) (limit : Nat) (body : Bytes) (r : RunOk),
      env.fetch url = some body →
      parse_website env url limit = some r →
      (r.truncated = false →
        fsRead r.fs (pathJoin r.directory_name (str "index.html")) =
          some (FileData.page (modifyTree (env.parse body)))) ∧
      (r.truncated = true →
        fsRead r.fs (pathJoin r.directory_name (str "index.html")) =
          some (FileData.bytes body)) := by
  intro env url limit body r h1 hr
  simp only [parse_website, h1] at hr
  cases h2 : env.titleOf body with
  | none => simp only [h2] at hr; exact absurd hr (by simp)
  | some title =>
      simp only [h2] at hr
      split at hr
      · obtain rfl := Option.some.inj hr
        constructor
        · intro h; simp at h
        · intro _
          exact runJobs_preserves_index env (base_url_of url) limit
            (env.fetchTime url) (create_directory env title) (env.parse body)
            (FileData.bytes body) _ (by simp [fsRead])
      · obtain rfl := Option.some.inj hr
        constructor
        · intro _
          exact fsRead_fsWrite_self _ _ _
        · intro h; simp at h

/-- The full observable result of the reference run of `env7` (no asset
references, budget not exceeded). -/
def r7 : RunOk :=
  ⟨str "20250101_000000_T",
   [str "20250101_000000_T",
    pathJoin (str "20250101_000000_T") (str "images"),
    pathJoin (str "20250101_000000_T") (str "audio"),
    pathJoin (str "20250101_000000_T") (str "pdfs"),
    pathJoin (str "20250101_000000_T") (str "text"),
    pathJoin (str "20250101_000000_T") (str "js"),
    pathJoin (str "20250101_000000_T") (str "css")],
   [(pathJoin (str "20250101_000000_T") (str "index.html"), FileData.page []),
    (pathJoin (str "20250101_000000_T") (str "index.html"), FileData.bytes [9])],
   [], false⟩

/-- Witness for C3's amended theorem on the concrete untruncated run. -/
theorem c3_witness :
    fsRead r7.fs (pathJoin r7.directory_name (str "index.html")) =
      some (FileData.page (modifyTree (env7.parse [9]))) :=
  (c3_truncation_skips_rewrite env7 (str "http://h.t/") 100 [9] r7
    (by decide) (by decide)).1 (by decide)

/-! ### An untruncated loop attempts exactly the scheduled items -/

theorem runJobs_fs_mono (env : Env) (base : Str) (limit : Nat)
    (js : List Job) (clock : Nat) (fs : FS) (x : Str × FileData) (hx : x ∈ fs) :
    x ∈ (runJobs env base limit clock fs js).fs := by
  obtain ⟨new, hnew, -⟩ := runJobs_fs_shape env base limit js clock fs
  rw [hnew]
  exact List.mem_append.2 (Or.inr hx)

theorem runJobs_not_trunc_attempts (env : Env) (base : Str) (limit : Nat) :
    ∀ (js : List Job) (clock : Nat) (fs : FS),
      (runJobs env base limit clock fs js).truncated = false →
      (runJobs env base limit clock fs js).attempts.map (fun a => (a.rawUrl, a.subdir)) =
        js.map (fun j => (j.rawUrl, j.subdir)) := by
  intro js
  induction js with
  | nil => intro clock fs _; rfl
  | cons j rest ih =>
      intro clock fs h
      simp only [runJobs] at h ⊢
      split at h
      · simp at h
      · next hcond =>
          rw [if_neg hcond]
          simp only [List.map_cons]
          exact congrArg _ (ih _ _ h)

theorem runJobs_not_trunc_files (env : Env) (base : Str) (limit : Nat) :
    ∀ (js : List Job) (clock : Nat) (fs : FS),
      (runJobs env base limit clock fs js).truncated = false →
      ∀ j ∈ js, ∀ x ∈ (download_file env (resolveUrl env base j.rawUrl)
          (basename (resolveUrl env base j.rawUrl)) j.subdir).files,
        x ∈ (runJobs env base limit clock fs js).fs := by
  intro js
  induction js with
  | nil => intro clock fs _ j hj; simp at hj
  | cons j0 rest ih =>
      intro clock fs h j hj x hx
      simp only [runJobs] at h ⊢
      split at h
      · simp at h
      · next hcond =>
          rw [if_neg hcond]
          rcases List.mem_cons.1 hj with rfl | hj2
          · exact runJobs_fs_mono env base limit rest _ _ x
              (List.mem_append.2 (Or.inl hx))
          · exact ih _ _ h j hj2 x hx

theorem attempts_contain_job (env : Env) (base : Str) (limit clock : Nat)
    (fs : FS) (js : List Job)
    (hnt : (runJobs env base limit clock fs js).truncated = false)
    (j : Job) (hj : j ∈ js) :
    ∃ a ∈ (runJobs env base limit clock fs js).attempts,
      a.rawUrl = j.rawUrl ∧ a.subdir = j.subdir := by
  have hmap := runJobs_not_trunc_attempts env base limit js clock fs hnt
  have hmem : (j.rawUrl, j.subdir) ∈
      (runJobs env base limit clock fs js).attempts.map
        (fun a => (a.rawUrl, a.subdir)) := by
    rw [hmap]
    exact List.mem_map.2 ⟨j, hj, rfl⟩
  obtain ⟨a, ha, hk⟩ := List.mem_map.1 hmem
  exact ⟨a, ha, congrArg Prod.fst hk, congrArg Prod.snd hk⟩

theorem mem_catJobs {es : List Element} {e : Element} {v : Str}
    (tag a sub : Str) (he : e ∈ es) (ht : e.tag = tag)
    (hv : getAttr e a = some v) :
    (⟨v, sub⟩ : Job) ∈ catJobs es tag a sub := by
  simp only [catJobs, List.mem_filterMap]
  refine ⟨e, ?_, ?_⟩
  · simp only [find_all, List.mem_filter]
    exact ⟨he, by simp [ht]⟩
  · rw [hv]
    rfl

theorem mem_scheduleJobs_img {dn : Str} {es : List Element} {e : Element}
    {v : Str} (he : e ∈ es) (ht : e.tag = str "img")
    (hv : getAttr e (str "src") = some v) :
    (⟨v, pathJoin dn (str "images")⟩ : Job) ∈ scheduleJobs dn es := by
  simp only [scheduleJobs, List.mem_append]
  exact Or.inl (Or.inl (Or.inl (Or.inl (mem_catJobs _ _ _ he ht hv))))

theorem mem_scheduleJobs_script {dn : Str} {es : List Element} {e : Element}
    {v : Str} (he : e ∈ es) (ht : e.tag = str "script")
    (hv : getAttr e (str "src") = some v) :
    (⟨v, pathJoin dn (str "js")⟩ : Job) ∈ scheduleJobs dn es := by
  simp only [scheduleJobs, List.mem_append]
  exact Or.inr (mem_catJobs _ _ _ he ht hv)

theorem mem_scheduleJobs_a_pdfs {dn : Str} {es : List Element} {e : Element}
    {v : Str} (he : e ∈ es) (ht : e.tag = str "a")
    (hv : getAttr e (str "href") = some v) :
    (⟨v, pathJoin dn (str "pdfs")⟩ : Job) ∈ scheduleJobs dn es := by
  simp only [scheduleJobs, List.mem_append]
  exact Or.inl (Or.inl (Or.inr (mem_catJobs _ _ _ he ht hv)))

theorem mem_scheduleJobs_a_text {dn : Str} {es : List Element} {e : Element}
    {v : Str} (he : e ∈ es) (ht : e.tag = str "a")
    (hv : getAttr e (str "href") = some v) :
    (⟨v, pathJoin dn (str "text")⟩ : Job) ∈ scheduleJobs dn es := by
  simp only [scheduleJobs, List.mem_append]
  exact Or.inl (Or.inr (mem_catJobs _ _ _ he ht hv))

theorem download_file_saved (env : Env) (u fn d : Str) (bts : Bytes)
    (hv : is_valid_url u = true) (hf : env.fetch u = some bts) :
    download_file env u fn d =
      ⟨Status.saved, [(pathJoin d (sanitize_filename fn), FileData.bytes bts)],
       true, env.fetchTime u⟩ := by
  simp [download_file, hv, hf]

/-! ### Which emitted local paths correspond to attempted references -/

/-- Oracle environment for a root page whose only reference is a stylesheet
link. -/
def env6 : Env where
  fetch u := if u == str "http://h.t/" then some [9] else none
  fetchTime _ := 0
  urljoin _ r := r
  parse _ := [⟨str "link", [(str "rel", str "stylesheet"), (str "href", str "style.css")]⟩]
  titleOf _ := some (str "T")
  timestamp := str "20250101_000000"

/-- C6 counterexample: on a page whose only reference is a stylesheet link,
the scheduler attempts nothing at all (`attempts = []` — there is no
stylesheet category in its tuple list), yet the persisted page carries the
local path `css/style.css`: the rewriter emitted a local path for a
category the scheduler never processed and a reference it never reached. -/
theorem c6_counterexample :
    (parse_website env6 (str "http://h.t/") 100).map (fun r =>
      (r.attempts, fsRead r.fs (pathJoin r.directory_name (str "index.html")))) =
      some ([], some (FileData.page
        [⟨str "link", [(str "rel", str "stylesheet"), (str "href", str "css/style.css")]⟩])) := by
  decide

/-- C6 (amended): when the rewriter runs at all the loop was not truncated,
and then every `img`/`src` and `script`/`src` reference it rewrites was
indeed attempted by the scheduler, under the matching category
subdirectory; stylesheet links, however, are rewritten to `css/...` paths
although the scheduler has no stylesheet category and never attempts them
(the counterexample exhibits such an invented path). -/
theorem c6_img_script_rewrites_were_attempted :
    ∀ (env : Env) (url : Str) (limit : Nat) (body : Bytes) (r : RunOk),
      env.fetch url = some body →
      parse_website env url limit = some r →
      r.truncated = false →
      (∀ e ∈ env.parse body, ∀ v : Str, e.tag = str "img" →
        getAttr e (str "src") = some v →
        ∃ a ∈ r.attempts, a.rawUrl = v ∧
          a.subdir = pathJoin r.directory_name (str "images")) ∧
      (∀ e ∈ env.parse body, ∀ v : Str, e.tag = str "script" →
        getAttr e (str "src") = some v →
        ∃ a ∈ r.attempts, a.rawUrl = v ∧
          a.subdir = pathJoin r.directory_name (str "js")) := by
  intro env url limit body r h1 hr h3
  simp only [parse_website, h1] at hr
  cases h2 : env.titleOf body with
  | none => simp only [h2] at hr; exact absurd hr (by simp)
  | some title =>
      simp only [h2] at hr
      split at hr
      · obtain rfl := Option.some.inj hr
        simp at h3
      · next hcond =>
          obtain rfl := Option.some.inj hr
          have hnt : (runJobs env (base_url_of url) limit (env.fetchTime url)
              [(pathJoin (create_directory env title) (str "index.html"),
                FileData.bytes body)]
              (scheduleJobs (create_directory env title) (env.parse body))).truncated
              = false := by
            exact Bool.not_eq_true _ ▸ (by simpa using hcond)
          constructor
          · intro e he v ht hv
            exact attempts_contain_job env (base_url_of url) limit
              (env.fetchTime url) _ _ hnt _ (mem_scheduleJobs_img he ht hv)
          · intro e he v ht hv
            exact attempts_contain_job env (base_url_of url) limit
              (env.fetchTime url) _ _ hnt _ (mem_scheduleJobs_script he ht hv)

/-- The full observable result of the reference run of `env1` with a large
budget (one `img` reference, fetched and saved). -/
def r1 : RunOk :=
  ⟨str "20250101_000000_T",
   [str "20250101_000000_T",
    pathJoin (str "20250101_000000_T") (str "images"),
    pathJoin (str "20250101_000000_T") (str "audio"),
    pathJoin (str "20250101_000000_T") (str "pdfs"),
    pathJoin (str "20250101_000000_T") (str "text"),
    pathJoin (str "20250101_000000_T") (str "js"),
    pathJoin (str "20250101_000000_T") (str "css")],
   [(pathJoin (str "20250101_000000_T") (str "index.html"),
     FileData.page [⟨str "img", [(str "src", str "images/http___h.t_f_b.png")]⟩]),
    (pathJoin (pathJoin (str "20250101_000000_T") (str "images")) (str "b.png"),
     FileData.bytes [1]),
    (pathJoin (str "20250101_000000_T") (str "index.html"), FileData.bytes [9])],
   [⟨str "http://h.t/f/b.png", str "http://h.t/f/b.png", str "b.png",
     pathJoin (str "20250101_000000_T") (str "images"), Status.saved⟩],
   false⟩

/-- Witness for C6's amended theorem on the concrete `env1` run. -/
theorem c6_witness :
    ∃ a ∈ r1.attempts, a.rawUrl = str "http://h.t/f/b.png" ∧
      a.subdir = pathJoin r1.directory_name (str "images") :=
  (c6_img_script_rewrites_were_attempted env1 (str "http://h.t/") 100 [9] r1
    (by decide) (by decide) (by decide)).1
    ⟨str "img", [(str "src", str "http://h.t/f/b.png")]⟩ (by decide)
    (str "http://h.t/f/b.png") rfl (by decide)

/-! ### Anchor references are scheduled under both pdfs and text -/

/-- Oracle environment in which the single anchor's fetch takes the whole
budget. -/
def env10 : Env where
  fetch u := if u == str "http://h.t/" then some [9]
    else if u == str "http://h.t/d.pdf" then some [3] else none
  fetchTime u := if u == str "http://h.t/d.pdf" then 5 else 0
  urljoin _ r := r
  parse _ := [⟨str "a", [(str "href", str "http://h.t/d.pdf")]⟩]
  titleOf _ := some (str "T")
  timestamp := str "20250101_000000"

/-- C10 counterexample: when the anchor's successful fetch itself consumes
the budget, the link is downloaded only once — the `pdfs/` copy is written,
the loop then truncates, and the `text/` copy never exists. -/
theorem c10_counterexample :
    (parse_website env10 (str "http://h.t/") 5).map (fun r =>
      (fsRead r.fs (pathJoin (pathJoin r.directory_name (str "pdfs")) (str "d.pdf")),
       fsRead r.fs (pathJoin (pathJoin r.directory_name (str "text")) (str "d.pdf")),
       r.attempts.length, r.truncated)) =
      some (some (FileData.bytes [3]), none, 1, true) := by
  decide

/-- C10 (amended): every `a` element carrying an `href` is scheduled twice
— once under `pdfs`, once under `text`, with no filtering by file type —
and provided the wall-clock budget does not truncate the batch, a link
whose (valid-URL) fetch succeeds has its bytes written to disk under both
subdirectories with the same sanitized basename; if the budget expires
after the first of the two copies, only that copy is written. -/
theorem c10_anchor_scheduled_in_pdfs_and_text :
    (∀ (dn : Str) (es : List Element) (e : Element) (v : Str),
      e ∈ es → e.tag = str "a" → getAttr e (str "href") = some v →
      (⟨v, pathJoin dn (str "pdfs")⟩ : Job) ∈ scheduleJobs dn es ∧
      (⟨v, pathJoin dn (str "text")⟩ : Job) ∈ scheduleJobs dn es) ∧
    ∀ (env : Env) (url : Str) (limit : Nat) (body bts : Bytes) (r : RunOk)
      (e : Element) (v : Str),
      env.fetch url = some body →
      parse_website env url limit = some r →
      r.truncated = false →
      e ∈ env.parse body → e.tag = str "a" →
      getAttr e (str "href") = some v →
      is_valid_url (resolveUrl env (base_url_of url) v) = true →
      env.fetch (resolveUrl env (base_url_of url) v) = some bts →
      ((pathJoin (pathJoin r.directory_name (str "pdfs"))
          (sanitize_filename (basename (resolveUrl env (base_url_of url) v)))),
        FileData.bytes bts) ∈ r.fs ∧
      ((pathJoin (pathJoin r.directory_name (str "text"))
          (sanitize_filename (basename (resolveUrl env (base_url_of url) v)))),
        FileData.bytes bts) ∈ r.fs := by
  refine ⟨?_, ?_⟩
  · intro dn es e v he ht hv
    exact ⟨mem_scheduleJobs_a_pdfs he ht hv, mem_scheduleJobs_a_text he ht hv⟩
  · intro env url limit body bts r e v h1 hr h3 he ht hv hvalid hfetch
    simp only [parse_website, h1] at hr
    cases h2 : env.titleOf body with
    | none => simp only [h2] at hr; exact absurd hr (by simp)
    | some title =>
        simp only [h2] at hr
        split at hr
        · obtain rfl := Option.some.inj hr
          simp at h3
        · next hcond =>
            obtain rfl := Option.some.inj hr
            have hnt : (runJobs env (base_url_of url) limit (env.fetchTime url)
                [(pathJoin (create_directory env title) (str "index.html"),
                  FileData.bytes body)]
                (scheduleJobs (create_directory env title) (env.parse body))).truncated
                = false := by
              exact Bool.not_eq_true _ ▸ (by simpa using hcond)
            have hfilesP : ((pathJoin (pathJoin (create_directory env title) (str "pdfs"))
                (sanitize_filename (basename (resolveUrl env (base_url_of url) v)))),
                FileData.bytes bts) ∈
                (download_file env (resolveUrl env (base_url_of url) v)
                  (basename (resolveUrl env (base_url_of url) v))
                  (pathJoin (create_directory env title) (str "pdfs"))).files := by
              rw [download_file_saved env _ _ _ bts hvalid hfetch]
              simp
            have hfilesT : ((pathJoin (pathJoin (create_directory env title) (str "text"))
                (sanitize_filename (basename (resolveUrl env (base_url_of url) v)))),
                FileData.bytes bts) ∈
                (download_file env (resolveUrl env (base_url_of url) v)
                  (basename (resolveUrl env (base_url_of url) v))
                  (pathJoin (create_directory env title) (str "text"))).files := by
              rw [download_file_saved env _ _ _ bts hvalid hfetch]
              simp
            constructor
            · have hx := runJobs_not_trunc_files env (base_url_of url) limit _ _ _ hnt
                ⟨v, pathJoin (create_directory env title) (str "pdfs")⟩
                (mem_scheduleJobs_a_pdfs he ht hv) _ hfilesP
              simp only [modify_html_content, fsWrite]
              exact List.mem_cons_of_mem _ hx
            · have hx := runJobs_not_trunc_files env (base_url_of url) limit _ _ _ hnt
                ⟨v, pathJoin (create_directory env title) (str "text")⟩
                (mem_scheduleJobs_a_text he ht hv) _ hfilesT
              simp only [modify_html_content, fsWrite]
              exact List.mem_cons_of_mem _ hx

/-- `env10` with instantaneous fetches, so the batch completes. -/
def env10w : Env where
  fetch u := if u == str "http://h.t/" then some [9]
    else if u == str "http://h.t/d.pdf" then some [3] else none
  fetchTime _ := 0
  urljoin _ r := r
  parse _ := [⟨str "a", [(str "href", str "http://h.t/d.pdf")]⟩]
  titleOf _ := some (str "T")
  timestamp := str "20250101_000000"

/-- The full observable result of the untruncated `env10w` run: the anchor
is downloaded twice, into `pdfs/` and `text/`. -/
def r10 : RunOk :=
  ⟨str "20250101_000000_T",
   [str "20250101_000000_T",
    pathJoin (str "20250101_000000_T") (str "images"),
    pathJoin (str "20250101_000000_T") (str "audio"),
    pathJoin (str "20250101_000000_T") (str "pdfs"),
    pathJoin (str "20250101_000000_T") (str "text"),
    pathJoin (str "20250101_000000_T") (str "js"),
    pathJoin (str "20250101_000000_T") (str "css")],
   [(pathJoin (str "20250101_000000_T") (str "index.html"),
     FileData.page [⟨str "a", [(str "href", str "http://h.t/d.pdf")]⟩]),
    (pathJoin (pathJoin (str "20250101_000000_T") (str "text")) (str "d.pdf"),
     FileData.bytes [3]),
    (pathJoin (pathJoin (str "20250101_000000_T") (str "pdfs")) (str "d.pdf"),
     FileData.bytes [3]),
    (pathJoin (str "20250101_000000_T") (str "index.html"), FileData.bytes [9])],
   [⟨str "http://h.t/d.pdf", str "http://h.t/d.pdf", str "d.pdf",
     pathJoin (str "20250101_000000_T") (str "pdfs"), Status.saved⟩,
    ⟨str "http://h.t/d.pdf", str "http://h.t/d.pdf", str "d.pdf",
     pathJoin (str "20250101_000000_T") (str "text"), Status.saved⟩],
   false⟩

/-- Witness for C10's amended theorem on the concrete untruncated run. -/
theorem c10_witness :
    ((pathJoin (pathJoin r10.directory_name (str "pdfs"))
        (sanitize_filename (basename (resolveUrl env10w
          (base_url_of (str "http://h.t/")) (str "http://h.t/d.pdf"))))),
      FileData.bytes [3]) ∈ r10.fs ∧
    ((pathJoin (pathJoin r10.directory_name (str "text"))
        (sanitize_filename (basename (resolveUrl env10w
          (base_url_of (str "http://h.t/")) (str "http://h.t/d.pdf"))))),
      FileData.bytes [3]) ∈ r10.fs :=
  c10_anchor_scheduled_in_pdfs_and_text.2 env10w (str "http://h.t/") 100 [9] [3]
    r10 ⟨str "a", [(str "href", str "http://h.t/d.pdf")]⟩ (str "http://h.t/d.pdf")
    (by decide) (by decide) (by decide) (by decide) rfl (by decide)
    (by decide) (by decide)

/-! ### The end-to-end scenario with a bare relative image reference -/

/-- Oracle environment for the spec's end-to-end scenario: root page at
`http://example.test/` titled "Demo Page Title" with `<img src="a.png">`;
the server would answer `http://example.test/a.png` with bytes `[1,2,3]`. -/
def env4 : Env where
  fetch u := if u == str "http://example.test/" then some [9]
    else if u == str "http://example.test/a.png" then some [1, 2, 3] else none
  fetchTime _ := 0
  urljoin _ r := r
  parse _ := [⟨str "img", [(str "src", str "a.png")]⟩]
  titleOf _ := some (str "Demo Page Title")
  timestamp := str "20250101_000000"

/-- C4 counterexample: in the end-to-end scenario the asset is never
fetched and `images/a.png` is never created — the bare relative URL
`"a.png"` is not resolved against the base (only `".."`-prefixed URLs are
joined), fails the scheme/netloc validation, and is skipped. -/
theorem c4_counterexample :
    (parse_website env4 (str "http://example.test/") 4).map (fun r =>
      (fsRead r.fs (pathJoin (pathJoin r.directory_name (str "images")) (str "a.png")),
       r.attempts.map (fun a => a.status),
       r.truncated)) =
      some (none, [Status.skippedInvalid], false) ∧
    startsDotDot (str "a.png") = false ∧
    is_valid_url (str "a.png") = false := by
  refine ⟨?_, ?_, ?_⟩
  · decide
  · decide
  · decide

/-- C4 (amended): the run creates the directory
`<timestamp>_Demo_Page_Title` with its six subdirectories and persists an
`index.html` whose `img` element's `src` is `images/a.png`, but it writes
no `images/a.png` file and records a single invalid-URL skip outcome: the
relative reference `a.png` does not start with `..`, so it is never
resolved against the base URL and never fetched. -/
theorem c4_run_rewrites_but_saves_nothing :
    (parse_website env4 (str "http://example.test/") 4).map (fun r =>
      (r.directory_name, r.dirs)) =
      some (str "20250101_000000_Demo_Page_Title",
        [str "20250101_000000_Demo_Page_Title",
         pathJoin (str "20250101_000000_Demo_Page_Title") (str "images"),
         pathJoin (str "20250101_000000_Demo_Page_Title") (str "audio"),
         pathJoin (str "20250101_000000_Demo_Page_Title") (str "pdfs"),
         pathJoin (str "20250101_000000_Demo_Page_Title") (str "text"),
         pathJoin (str "20250101_000000_Demo_Page_Title") (str "js"),
         pathJoin (str "20250101_000000_Demo_Page_Title") (str "css")]) ∧
    (parse_website env4 (str "http://example.test/") 4).map (fun r =>
      (fsRead r.fs (pathJoin r.directory_name (str "index.html")),
       fsRead r.fs (pathJoin (pathJoin r.directory_name (str "images")) (str "a.png")),
       r.attempts)) =
      some
        (some (FileData.page [⟨str "img", [(str "src", str "images/a.png")]⟩]),
         none,
         [⟨str "a.png", str "a.png", str "a.png",
           pathJoin (str "20250101_000000_Demo_Page_Title") (str "images"),
           Status.skippedInvalid⟩]) := by
  constructor
  · decide
  · decide
